import Mathlib

/-!
Shallow embedding of the BSP I2C polled master driver (`src/bsp/i2c.c`).

The driver is a straight-line, flag-polling state machine: every hardware
access (flag poll, start/stop condition, addressing, data transmit/receive,
ACK configuration) is modelled as an event, and each driver function is
embedded as a pure function returning its status together with the list of
hardware events it performs, in program order.  Writes through the caller's
byte buffer (`data[i] = ...`) are recorded as `store` events with the
buffer-relative index; the resulting buffer contents are recovered from the
trace by `applyTrace`.  Received bytes are supplied by a stream `rx : Nat → Nat`
(the n-th call to `i2c_data_receive` returns `rx n`).  Byte and address
parameters are `Nat` (the C `uint8_t` arguments, values 0..255; the functions
never overflow them, so no masking arises inside the functions themselves).
-/

/-- Status type `i2c_state_t` from `i2c.h`, with the two values the driver uses. -/
inductive i2c_state_t
  | BSP_I2C_OK
  | BSP_I2C_FAIL
deriving DecidableEq

/-- The peripheral status flags polled by the driver. -/
inductive I2cFlag
  | I2CBSY
  | SBSEND
  | ADDSEND
  | TBE
  | RBNE
  | BTC
deriving DecidableEq

/-- Transfer direction passed to `i2c_master_addressing`. -/
inductive Dir
  | transmitter
  | receiver
deriving DecidableEq

/-- Argument of `i2c_ack_config`. -/
inductive AckMode
  | enable
  | disable
deriving DecidableEq

/-- Argument of `i2c_ackpos_config`. -/
inductive AckPos
  | current
  | next
deriving DecidableEq

/-- One observable action of the driver, in program order:
`pollFlagSet f` is `while (!i2c_flag_get(f));`, `pollFlagClear f` is
`while (i2c_flag_get(f));`, `clearFlag` is `i2c_flag_clear`,
`start`/`stop` are `i2c_start_on_bus`/`i2c_stop_on_bus`,
`pollStopBit` is `while (I2C_CTL0(I2C0) & 0x0200);`,
`addressing a d` is `i2c_master_addressing(I2C0, a, d)`,
`transmit b` is `i2c_data_transmit(I2C0, b)`, `receive b` is a call to
`i2c_data_receive(I2C0)` returning `b`, `store i v` is the buffer write
`data[i] = v`, and `ackpos`/`ackCfg` are the ACK configuration calls. -/
inductive HWEvent
  | pollFlagSet (f : I2cFlag)
  | pollFlagClear (f : I2cFlag)
  | clearFlag (f : I2cFlag)
  | start
  | stop
  | pollStopBit
  | addressing (a : Nat) (d : Dir)
  | transmit (b : Nat)
  | receive (b : Nat)
  | store (i : Nat) (v : Nat)
  | ackpos (p : AckPos)
  | ackCfg (m : AckMode)
deriving DecidableEq

/-- The transmit loop of `bsp_i2c0_write`:
`while (i) { i2c_data_transmit(I2C0, *data); while (!TBE); data++; --i; }`.
`idx` is the pointer offset from the start of the buffer and the second
argument is the remaining count `i`. -/
def txLoop (data : Nat → Nat) (idx : Nat) : Nat → List HWEvent
  | 0 => []
  | i + 1 =>
      HWEvent.transmit (data idx) :: HWEvent.pollFlagSet I2cFlag.TBE ::
        txLoop data (idx + 1) i

/-- Embedding of `bsp_i2c0_write` (`i2c.c`): status together with the trace of
hardware actions.  The function never writes through `data`, so the trace
contains no `store` event. -/
def bsp_i2c0_write (i2c_dev_7bit_addr : Nat) (data : Nat → Nat) (count : Nat) :
    i2c_state_t × List HWEvent :=
  if count < 1 then (i2c_state_t.BSP_I2C_FAIL, [])
  else
    (i2c_state_t.BSP_I2C_OK,
      [HWEvent.pollFlagClear I2cFlag.I2CBSY,
       HWEvent.start,
       HWEvent.pollFlagSet I2cFlag.SBSEND,
       HWEvent.addressing (2 * i2c_dev_7bit_addr) Dir.transmitter,
       HWEvent.pollFlagSet I2cFlag.ADDSEND,
       HWEvent.clearFlag I2cFlag.ADDSEND,
       HWEvent.pollFlagSet I2cFlag.TBE]
      ++ txLoop data 0 count
      ++ [HWEvent.stop, HWEvent.pollStopBit])

/-- Body of the `count >= 3` receive loop of `bsp_i2c0_read`, at iteration `i`:
`if ((count - 3) == i) { while (!BTC); i2c_ack_config(I2C0, I2C_ACK_DISABLE); }
while (!RBNE); data[i] = i2c_data_receive(I2C0);`. -/
def rcvIter (count : Nat) (rx : Nat → Nat) (i : Nat) : List HWEvent :=
  (if count - 3 = i then
     [HWEvent.pollFlagSet I2cFlag.BTC, HWEvent.ackCfg AckMode.disable]
   else [])
  ++ [HWEvent.pollFlagSet I2cFlag.RBNE,
      HWEvent.receive (rx i),
      HWEvent.store i (rx i)]

/-- The `count >= 3` receive loop of `bsp_i2c0_read`:
`for (i = 0; i < count; i++) { body }`, embedded as the concatenation of the
iteration bodies for `i = 0, ..., count - 1` in order. -/
def rcvLoop (count : Nat) (rx : Nat → Nat) : List HWEvent :=
  (List.range count).flatMap (rcvIter count rx)

/-- Embedding of `bsp_i2c0_read` (`i2c.c`): status together with the trace of
hardware actions, buffer writes included as `store` events. -/
def bsp_i2c0_read (i2c_dev_7bit_addr : Nat) (count : Nat) (rx : Nat → Nat) :
    i2c_state_t × List HWEvent :=
  if count < 1 then (i2c_state_t.BSP_I2C_FAIL, [])
  else
    (i2c_state_t.BSP_I2C_OK,
      [HWEvent.ackpos AckPos.next,
       HWEvent.pollFlagClear I2cFlag.I2CBSY,
       HWEvent.start,
       HWEvent.pollFlagSet I2cFlag.SBSEND,
       HWEvent.addressing (2 * i2c_dev_7bit_addr) Dir.receiver,
       HWEvent.pollFlagSet I2cFlag.ADDSEND,
       HWEvent.clearFlag I2cFlag.ADDSEND]
      ++ (if 3 ≤ count then rcvLoop count rx
          else if count = 2 then
            [HWEvent.pollFlagSet I2cFlag.BTC,
             HWEvent.pollFlagSet I2cFlag.RBNE,
             HWEvent.receive (rx 0),
             HWEvent.store 0 (rx 0),
             HWEvent.pollFlagSet I2cFlag.RBNE,
             HWEvent.receive (rx 1),
             HWEvent.store 1 (rx 1)]
          else
            [HWEvent.pollFlagSet I2cFlag.BTC,
             HWEvent.pollFlagSet I2cFlag.RBNE,
             HWEvent.receive (rx 0),
             HWEvent.store 0 (rx 0)])
      ++ [HWEvent.stop,
          HWEvent.pollStopBit,
          HWEvent.ackpos AckPos.current,
          HWEvent.ackCfg AckMode.enable])

/-- Embedding of `bsp_i2c0_reg8_write` (`i2c.c`):
`uint8_t txbuffer[2] = {reg, value}; bsp_i2c0_write(addr, txbuffer, 2);
return BSP_I2C_OK;`.  The inner status is computed and discarded, as in the C. -/
def bsp_i2c0_reg8_write (i2c_dev_7bit_addr reg value : Nat) :
    i2c_state_t × List HWEvent :=
  let txbuffer : Nat → Nat := fun k => if k = 0 then reg else if k = 1 then value else 0
  let r := bsp_i2c0_write i2c_dev_7bit_addr txbuffer 2
  (i2c_state_t.BSP_I2C_OK, r.2)

/-- Embedding of `bsp_i2c0_reg8_read` (`i2c.c`):
`bsp_i2c0_write(addr, (uint8_t*)reg, 1); bsp_i2c0_read(addr, value, 1);
return BSP_I2C_OK;`.  The C casts the byte value `reg` to a pointer, so the
buffer handed to the inner write is the address space at base address `reg`:
`mem : Nat → Nat` models the address space, and the write's buffer view is
`fun k => mem (reg + k)`.  The last component is the byte left in `*value`
(initially `vinit`), recovered from the read's store events. -/
def bsp_i2c0_reg8_read (mem : Nat → Nat) (i2c_dev_7bit_addr reg : Nat)
    (vinit : Nat) (rx : Nat → Nat) : i2c_state_t × List HWEvent × Nat :=
  let r1 := bsp_i2c0_write i2c_dev_7bit_addr (fun k => mem (reg + k)) 1
  let r2 := bsp_i2c0_read i2c_dev_7bit_addr 1 rx
  (i2c_state_t.BSP_I2C_OK, r1.2 ++ r2.2,
   (r2.2.foldl (fun d e => match e with
      | HWEvent.store i v => Function.update d i v
      | _ => d) (fun _ => vinit)) 0)

/-- Replay the buffer writes (`store` events) of a trace onto an initial
buffer, yielding the final buffer contents. -/
def applyTrace (t : List HWEvent) (d : Nat → Nat) : Nat → Nat :=
  t.foldl (fun d e => match e with
    | HWEvent.store i v => Function.update d i v
    | _ => d) d

/-- Recognize a byte-receive event. -/
def isReceive : HWEvent → Bool
  | HWEvent.receive _ => true
  | _ => false

/-- Recognize the ACK-disable event `i2c_ack_config(I2C0, I2C_ACK_DISABLE)`. -/
def isAckDisable : HWEvent → Bool
  | HWEvent.ackCfg AckMode.disable => true
  | _ => false

/-- Recognize a buffer store event. -/
def isStore : HWEvent → Bool
  | HWEvent.store _ _ => true
  | _ => false

/-- Extract the byte of a transmit event. -/
def getTransmit : HWEvent → Option Nat
  | HWEvent.transmit b => some b
  | _ => none

/-- The event is not a store at an index `≥ n` (true for non-store events). -/
def storesBelow (n : Nat) : HWEvent → Bool
  | HWEvent.store i _ => decide (i < n)
  | _ => true

/-- Scanner for the receive discipline: every `receive` event in the list is
immediately preceded by a poll of the RBNE flag. -/
def receivesRBNE : List HWEvent → Bool
  | [] => true
  | HWEvent.pollFlagSet I2cFlag.RBNE :: HWEvent.receive _ :: l => receivesRBNE l
  | HWEvent.receive _ :: _ => false
  | _ :: l => receivesRBNE l

/-! Helper lemmas about the trace combinators. -/

theorem applyTrace_cons (e : HWEvent) (t : List HWEvent) (d : Nat → Nat) :
    applyTrace (e :: t) d
      = applyTrace t (match e with
          | HWEvent.store i v => Function.update d i v
          | _ => d) := rfl

theorem isStore_false_storesBelow (n : Nat) (e : HWEvent) (h : isStore e = false) :
    storesBelow n e = true := by
  cases e <;> first | rfl | simp [isStore] at h

theorem applyTrace_frame (n j : Nat) (hj : n ≤ j) :
    ∀ (t : List HWEvent) (d : Nat → Nat),
      (∀ e ∈ t, storesBelow n e = true) → applyTrace t d j = d j := by
  intro t
  induction t with
  | nil => intro d _; rfl
  | cons e t ih =>
      intro d h
      rw [applyTrace_cons]
      have he : storesBelow n e = true := h e (List.mem_cons_self e t)
      have ht : ∀ e ∈ t, storesBelow n e = true := fun x hx => h x (List.mem_cons_of_mem e hx)
      cases e with
      | store i v =>
          have hi : i < n := by simpa [storesBelow] using he
          rw [ih _ ht]
          have hji : j ≠ i := by omega
          exact Function.update_noteq hji v d
      | _ => rw [ih _ ht]

theorem txLoop_eq_range (data : Nat → Nat) :
    ∀ n idx, txLoop data idx n
      = (List.range n).flatMap
          (fun i => [HWEvent.transmit (data (idx + i)),
                     HWEvent.pollFlagSet I2cFlag.TBE]) := by
  intro n
  induction n with
  | zero => intro idx; simp [txLoop]
  | succ n ih =>
      intro idx
      rw [List.range_succ_eq_map, txLoop, ih (idx + 1)]
      simp only [List.flatMap_cons, List.flatMap_map, List.cons_append, List.nil_append,
        Nat.add_zero]
      have h : (fun a => [HWEvent.transmit (data (idx + Nat.succ a)),
                  HWEvent.pollFlagSet I2cFlag.TBE])
             = fun i => [HWEvent.transmit (data (idx + 1 + i)),
                  HWEvent.pollFlagSet I2cFlag.TBE] := by
        funext k
        have hk : idx + Nat.succ k = idx + 1 + k := by omega
        simp [hk]
      rw [h]

theorem txLoop_no_store (data : Nat → Nat) :
    ∀ n idx, ∀ e ∈ txLoop data idx n, isStore e = false := by
  intro n
  induction n with
  | zero => intro idx e he; simp [txLoop] at he
  | succ n ih =>
      intro idx e he
      rw [txLoop] at he
      simp only [List.mem_cons] at he
      rcases he with rfl | rfl | h
      · simp [isStore]
      · simp [isStore]
      · exact ih (idx + 1) e h

theorem txLoop_transmits (data : Nat → Nat) :
    ∀ n idx, (txLoop data idx n).filterMap getTransmit
      = (List.range n).map (fun i => data (idx + i)) := by
  intro n
  induction n with
  | zero => intro idx; simp [txLoop]
  | succ n ih =>
      intro idx
      rw [List.range_succ_eq_map, txLoop]
      simp only [List.filterMap_cons, getTransmit]
      rw [ih (idx + 1)]
      simp only [List.map_cons, List.map_map, Nat.add_zero]
      have h : ((fun i => data (idx + i)) ∘ Nat.succ) = fun i => data (idx + 1 + i) := by
        funext k
        have hk : idx + Nat.succ k = idx + 1 + k := by omega
        simp [Function.comp, hk]
      rw [h]

theorem rcvIter_countP_isReceive (count : Nat) (rx : Nat → Nat) (i : Nat) :
    (rcvIter count rx i).countP isReceive = 1 := by
  by_cases h : count - 3 = i <;>
    simp [rcvIter, h, isReceive, List.countP_cons, List.countP_append]

theorem rcvIter_countP_disable (count : Nat) (rx : Nat → Nat) (i : Nat) :
    (rcvIter count rx i).countP isAckDisable = if count - 3 = i then 1 else 0 := by
  by_cases h : count - 3 = i <;>
    simp [rcvIter, h, isAckDisable, List.countP_cons, List.countP_append]

theorem rcvPref_countP_isReceive (count : Nat) (rx : Nat → Nat) :
    ∀ k, ((List.range k).flatMap (rcvIter count rx)).countP isReceive = k := by
  intro k
  induction k with
  | zero => simp
  | succ k ih =>
      rw [List.range_succ, List.flatMap_append, List.countP_append, ih]
      simp [rcvIter_countP_isReceive]

theorem rcvPref_countP_disable (count : Nat) (rx : Nat → Nat) :
    ∀ k, ((List.range k).flatMap (rcvIter count rx)).countP isAckDisable
      = if count - 3 < k then 1 else 0 := by
  intro k
  induction k with
  | zero => simp
  | succ k ih =>
      rw [List.range_succ, List.flatMap_append, List.countP_append, ih]
      simp only [List.flatMap_cons, List.flatMap_nil, List.append_nil]
      rw [rcvIter_countP_disable]
      by_cases h1 : count - 3 < k
      · have h2 : ¬ (count - 3 = k) := by omega
        have h3 : count - 3 < k + 1 := by omega
        simp [h1, h2, h3]
      · by_cases h2 : count - 3 = k
        · have h3 : count - 3 < k + 1 := by omega
          simp [h1, h2, h3]
        · have h3 : ¬ (count - 3 < k + 1) := by omega
          simp [h1, h2, h3]

theorem receivesRBNE_rcvIter (count : Nat) (rx : Nat → Nat) (i : Nat)
    (rest : List HWEvent) :
    receivesRBNE (rcvIter count rx i ++ rest) = receivesRBNE rest := by
  by_cases h : count - 3 = i
  · simp only [rcvIter, if_pos h, List.cons_append, List.nil_append]
    rfl
  · simp only [rcvIter, if_neg h, List.cons_append, List.nil_append]
    rfl

theorem receivesRBNE_rcvPref (count : Nat) (rx : Nat → Nat) :
    ∀ k (rest : List HWEvent),
      receivesRBNE ((List.range k).flatMap (rcvIter count rx) ++ rest)
        = receivesRBNE rest := by
  intro k
  induction k with
  | zero => intro rest; simp
  | succ k ih =>
      intro rest
      rw [List.range_succ, List.flatMap_append, List.append_assoc, ih]
      simp only [List.flatMap_cons, List.flatMap_nil, List.append_nil]
      exact receivesRBNE_rcvIter count rx k rest

theorem rcvIter_storesBelow (count : Nat) (rx : Nat → Nat) (i n : Nat) (hi : i < n) :
    ∀ e ∈ rcvIter count rx i, storesBelow n e = true := by
  intro e he
  by_cases h : count - 3 = i
  · simp only [rcvIter, if_pos h, List.cons_append, List.nil_append, List.mem_cons,
      List.not_mem_nil, or_false] at he
    rcases he with rfl | rfl | rfl | rfl | rfl
    · rfl
    · rfl
    · rfl
    · rfl
    · simp only [storesBelow, decide_eq_true_eq]; omega
  · simp only [rcvIter, if_neg h, List.cons_append, List.nil_append, List.mem_cons,
      List.not_mem_nil, or_false] at he
    rcases he with rfl | rfl | rfl
    · rfl
    · rfl
    · simp only [storesBelow, decide_eq_true_eq]; omega

theorem rcvPref_storesBelow (count : Nat) (rx : Nat → Nat) :
    ∀ k, k ≤ count →
      ∀ e ∈ (List.range k).flatMap (rcvIter count rx), storesBelow count e = true := by
  intro k
  induction k with
  | zero => intro _ e he; simp at he
  | succ k ih =>
      intro hk e he
      rw [List.range_succ, List.flatMap_append] at he
      rcases List.mem_append.mp he with h | h
      · exact ih (by omega) e h
      · simp only [List.flatMap_cons, List.flatMap_nil, List.append_nil] at h
        exact rcvIter_storesBelow count rx k count (by omega) e h

theorem rcvLoop_split (count : Nat) (rx : Nat → Nat) (h3 : 3 ≤ count) :
    ∃ s, rcvLoop count rx
        = (List.range (count - 3)).flatMap (rcvIter count rx)
          ++ ([HWEvent.pollFlagSet I2cFlag.BTC, HWEvent.ackCfg AckMode.disable,
               HWEvent.pollFlagSet I2cFlag.RBNE, HWEvent.receive (rx (count - 3))]
              ++ s) := by
  obtain ⟨m, rfl⟩ : ∃ m, count = m + 3 := ⟨count - 3, by omega⟩
  have hm : m + 3 - 3 = m := by omega
  refine ⟨HWEvent.store m (rx m) ::
    (rcvIter (m + 3) rx (m + 1) ++ rcvIter (m + 3) rx (m + 2)), ?_⟩
  rw [rcvLoop, List.range_add, List.flatMap_append, hm]
  congr 1
  have h3eq : List.range 3 = [0, 1, 2] := rfl
  rw [h3eq]
  simp only [List.map_cons, List.map_nil, List.flatMap_cons, List.flatMap_nil,
    List.append_nil, Nat.add_zero]
  conv_lhs => rw [rcvIter, if_pos hm]
  simp [List.append_assoc]

theorem rcvLoop_countP_isReceive (count : Nat) (rx : Nat → Nat) :
    (rcvLoop count rx).countP isReceive = count :=
  rcvPref_countP_isReceive count rx count

theorem rcvLoop_countP_disable (count : Nat) (rx : Nat → Nat) (h3 : 3 ≤ count) :
    (rcvLoop count rx).countP isAckDisable = 1 := by
  have h : count - 3 < count := by omega
  rw [rcvLoop]
  rw [rcvPref_countP_disable count rx count, if_pos h]

theorem read_countP_isReceive (addr count : Nat) (rx : Nat → Nat) (h : 1 ≤ count) :
    (bsp_i2c0_read addr count rx).2.countP isReceive = count := by
  have h1 : ¬ count < 1 := by omega
  rcases Nat.lt_or_ge count 3 with hc | hc
  · have : count = 1 ∨ count = 2 := by omega
    rcases this with rfl | rfl <;>
      simp [bsp_i2c0_read, isReceive, List.countP_cons, List.countP_append]
  · rw [bsp_i2c0_read, if_neg h1, if_pos hc]
    simp only [List.countP_append, rcvLoop_countP_isReceive]
    simp [isReceive, List.countP_cons]

theorem read_countP_disable (addr count : Nat) (rx : Nat → Nat) (h : 1 ≤ count) :
    (bsp_i2c0_read addr count rx).2.countP isAckDisable
      = if 3 ≤ count then 1 else 0 := by
  have h1 : ¬ count < 1 := by omega
  rcases Nat.lt_or_ge count 3 with hc | hc
  · have hc3 : ¬ 3 ≤ count := by omega
    have : count = 1 ∨ count = 2 := by omega
    rcases this with rfl | rfl <;>
      simp [bsp_i2c0_read, isAckDisable, List.countP_cons, List.countP_append]
  · rw [bsp_i2c0_read, if_neg h1, if_pos hc, if_pos hc]
    simp only [List.countP_append, rcvLoop_countP_disable _ _ hc]
    simp [isAckDisable, List.countP_cons]

theorem read_receivesRBNE (addr count : Nat) (rx : Nat → Nat) :
    receivesRBNE (bsp_i2c0_read addr count rx).2 = true := by
  by_cases h1 : count < 1
  · simp [bsp_i2c0_read, h1, receivesRBNE]
  rcases Nat.lt_or_ge count 3 with hc | hc
  · have : count = 1 ∨ count = 2 := by omega
    rcases this with rfl | rfl <;>
      · rw [bsp_i2c0_read]
        rfl
  · rw [bsp_i2c0_read, if_neg h1, if_pos hc]
    show receivesRBNE
      ([HWEvent.ackpos AckPos.next, HWEvent.pollFlagClear I2cFlag.I2CBSY, HWEvent.start,
        HWEvent.pollFlagSet I2cFlag.SBSEND, HWEvent.addressing (2 * addr) Dir.receiver,
        HWEvent.pollFlagSet I2cFlag.ADDSEND, HWEvent.clearFlag I2cFlag.ADDSEND]
       ++ rcvLoop count rx
       ++ [HWEvent.stop, HWEvent.pollStopBit, HWEvent.ackpos AckPos.current,
           HWEvent.ackCfg AckMode.enable]) = true
    rw [List.append_assoc]
    have hh : ∀ X : List HWEvent,
        receivesRBNE
          ([HWEvent.ackpos AckPos.next, HWEvent.pollFlagClear I2cFlag.I2CBSY, HWEvent.start,
            HWEvent.pollFlagSet I2cFlag.SBSEND, HWEvent.addressing (2 * addr) Dir.receiver,
            HWEvent.pollFlagSet I2cFlag.ADDSEND, HWEvent.clearFlag I2cFlag.ADDSEND] ++ X)
          = receivesRBNE X := fun X => rfl
    rw [hh]
    rw [rcvLoop]
    rw [receivesRBNE_rcvPref count rx count]
    rfl

theorem read_storesBelow (addr count : Nat) (rx : Nat → Nat) :
    ∀ e ∈ (bsp_i2c0_read addr count rx).2, storesBelow count e = true := by
  intro e he
  by_cases h1 : count < 1
  · simp [bsp_i2c0_read, h1] at he
  rcases Nat.lt_or_ge count 3 with hc | hc
  · have : count = 1 ∨ count = 2 := by omega
    rcases this with rfl | rfl
    · rw [bsp_i2c0_read, if_neg h1, if_neg (show ¬ (3:Nat) ≤ 1 from by omega),
        if_neg (show ¬ (1:Nat) = 2 from by omega)] at he
      simp only [List.cons_append, List.nil_append, List.mem_cons, List.mem_append,
        List.not_mem_nil, or_false] at he
      rcases he with rfl|rfl|rfl|rfl|rfl|rfl|rfl|rfl|rfl|rfl|rfl|rfl|rfl|rfl|rfl <;> rfl
    · rw [bsp_i2c0_read, if_neg h1, if_neg (show ¬ (3:Nat) ≤ 2 from by omega),
        if_pos rfl] at he
      simp only [List.cons_append, List.nil_append, List.mem_cons, List.mem_append,
        List.not_mem_nil, or_false] at he
      rcases he with rfl|rfl|rfl|rfl|rfl|rfl|rfl|rfl|rfl|rfl|rfl|rfl|rfl|rfl|rfl|rfl|rfl|rfl <;> rfl
  · rw [bsp_i2c0_read, if_neg h1, if_pos hc] at he
    simp only [List.mem_append, List.mem_cons, List.not_mem_nil, or_false] at he
    rcases he with (h | h) | h
    · rcases h with rfl|rfl|rfl|rfl|rfl|rfl|rfl <;> rfl
    · exact rcvPref_storesBelow count rx count (le_refl count) e h
    · rcases h with rfl|rfl|rfl|rfl <;> rfl

theorem write_no_store (addr count : Nat) (data : Nat → Nat) :
    ∀ e ∈ (bsp_i2c0_write addr data count).2, isStore e = false := by
  intro e he
  by_cases h1 : count < 1
  · simp [bsp_i2c0_write, h1] at he
  · rw [bsp_i2c0_write, if_neg h1] at he
    simp only [List.mem_append, List.mem_cons, List.not_mem_nil, or_false] at he
    rcases he with (h | h) | h
    · rcases h with rfl|rfl|rfl|rfl|rfl|rfl|rfl <;> rfl
    · exact txLoop_no_store data count 0 e h
    · rcases h with rfl|rfl <;> rfl


/-! Claim theorems. -/

/-- C1 (code bug): `bsp_i2c0_reg8_read` passes `(uint8_t*)reg` — the register
index cast to a pointer — to `bsp_i2c0_write`, instead of the address of `reg`.
At the concrete input address 0x50, reg 5, with an all-zero address space, the
single byte transmitted by the leading 1-byte write transaction is the byte
stored at memory address 5 (namely 0), not the register index 5 the claim (and
the function's own parameter documentation) promises. -/
theorem C1_reg8_read_transmits_byte_at_address_reg :
    (bsp_i2c0_reg8_read (fun _ => 0) 80 5 0 (fun _ => 37)).2.1.filterMap getTransmit = [0]
    ∧ (bsp_i2c0_reg8_read (fun _ => 0) 80 5 0 (fun _ => 37)).2.1.filterMap getTransmit
        ≠ [5] := by
  constructor
  · decide
  · decide

/-- C2 (counterexample): for count = 1 the receive path of `bsp_i2c0_read`
issues no ACK-disable at all, so it does not issue it exactly once as claimed. -/
theorem C2_count1_has_no_ack_disable :
    (bsp_i2c0_read 80 1 (fun _ => 0)).2.countP isAckDisable ≠ 1 := by decide

/-- C2 (amended): for every count ≥ 1, `bsp_i2c0_read` performs exactly `count`
byte-receive operations, each immediately preceded by a poll of the
receive-buffer-not-empty flag; the ACK-disable operation is issued exactly once
when count ≥ 3 — at the loop iteration where exactly 3 bytes remain, directly
after a poll of the byte-transfer-complete flag and before the final byte is
received — and is never issued for count 1 or 2. -/
theorem C2_receive_count_and_ack_discipline (addr count : Nat) (rx : Nat → Nat)
    (h : 1 ≤ count) :
    (bsp_i2c0_read addr count rx).2.countP isReceive = count
    ∧ receivesRBNE (bsp_i2c0_read addr count rx).2 = true
    ∧ (bsp_i2c0_read addr count rx).2.countP isAckDisable = (if 3 ≤ count then 1 else 0)
    ∧ (3 ≤ count → ∃ p s, (bsp_i2c0_read addr count rx).2
        = p ++ ([HWEvent.pollFlagSet I2cFlag.BTC, HWEvent.ackCfg AckMode.disable,
                 HWEvent.pollFlagSet I2cFlag.RBNE, HWEvent.receive (rx (count - 3))] ++ s)
        ∧ p.countP isReceive = count - 3) := by
  refine ⟨read_countP_isReceive addr count rx h, read_receivesRBNE addr count rx,
    read_countP_disable addr count rx h, ?_⟩
  intro h3
  have h1 : ¬ count < 1 := by omega
  obtain ⟨s, hs⟩ := rcvLoop_split count rx h3
  refine ⟨[HWEvent.ackpos AckPos.next, HWEvent.pollFlagClear I2cFlag.I2CBSY, HWEvent.start,
           HWEvent.pollFlagSet I2cFlag.SBSEND, HWEvent.addressing (2 * addr) Dir.receiver,
           HWEvent.pollFlagSet I2cFlag.ADDSEND, HWEvent.clearFlag I2cFlag.ADDSEND]
          ++ (List.range (count - 3)).flatMap (rcvIter count rx),
         s ++ [HWEvent.stop, HWEvent.pollStopBit, HWEvent.ackpos AckPos.current,
               HWEvent.ackCfg AckMode.enable], ?_, ?_⟩
  · rw [bsp_i2c0_read, if_neg h1, if_pos h3]
    show _ ++ rcvLoop count rx ++ _ = _
    rw [hs]
    simp [List.append_assoc]
  · rw [List.countP_append, rcvPref_countP_isReceive]
    simp [isReceive, List.countP_cons]

/-- C3: `bsp_i2c0_write` and `bsp_i2c0_read` return BSP_I2C_FAIL exactly when
count < 1; in that case they perform no hardware action at all (empty trace,
so in particular no flag read, no peripheral register access and no buffer
store), and for count ≥ 1 both return BSP_I2C_OK. -/
theorem C3_zero_count_fails_without_hardware_access (addr count : Nat)
    (data : Nat → Nat) (rx : Nat → Nat) :
    ((bsp_i2c0_write addr data count).1 = i2c_state_t.BSP_I2C_FAIL ↔ count < 1)
    ∧ ((bsp_i2c0_read addr count rx).1 = i2c_state_t.BSP_I2C_FAIL ↔ count < 1)
    ∧ (count < 1 →
        (bsp_i2c0_write addr data count).2 = []
        ∧ (bsp_i2c0_read addr count rx).2 = []
        ∧ applyTrace (bsp_i2c0_read addr count rx).2 data = data)
    ∧ (1 ≤ count →
        (bsp_i2c0_write addr data count).1 = i2c_state_t.BSP_I2C_OK
        ∧ (bsp_i2c0_read addr count rx).1 = i2c_state_t.BSP_I2C_OK) := by
  by_cases h : count < 1
  · simp [bsp_i2c0_write, bsp_i2c0_read, h, applyTrace]
  · simp [bsp_i2c0_write, bsp_i2c0_read, h]

/-- C3 witness at concrete inputs: count 0 fails with an empty trace and
count 1 succeeds. -/
theorem C3_zero_count_witness :
    (bsp_i2c0_write 80 (fun _ => 0) 0).1 = i2c_state_t.BSP_I2C_FAIL
    ∧ (bsp_i2c0_read 80 0 (fun _ => 0)).2 = []
    ∧ (bsp_i2c0_write 80 (fun _ => 0) 1).1 = i2c_state_t.BSP_I2C_OK := by
  refine ⟨?_, ?_, ?_⟩
  · exact (C3_zero_count_fails_without_hardware_access 80 0 (fun _ => 0)
      (fun _ => 0)).1.mpr (by decide)
  · exact ((C3_zero_count_fails_without_hardware_access 80 0 (fun _ => 0)
      (fun _ => 0)).2.2.1 (by decide)).2.1
  · exact ((C3_zero_count_fails_without_hardware_access 80 1 (fun _ => 0)
      (fun _ => 0)).2.2.2 (by decide)).1

/-- C4: the composite register operations return BSP_I2C_OK on every input,
irrespective of the statuses of the inner write/read calls (which they
discard). -/
theorem C4_reg8_operations_always_ok (mem : Nat → Nat)
    (addr reg value vinit : Nat) (rx : Nat → Nat) :
    (bsp_i2c0_reg8_write addr reg value).1 = i2c_state_t.BSP_I2C_OK
    ∧ (bsp_i2c0_reg8_read mem addr reg vinit rx).1 = i2c_state_t.BSP_I2C_OK :=
  ⟨rfl, rfl⟩

/-- C5: `bsp_i2c0_reg8_write` delegates to a single `bsp_i2c0_write` call with
count 2 on the buffer {reg, value}, and accordingly the bytes it transmits are
exactly reg then value. -/
theorem C5_reg8_write_sends_reg_then_value (addr reg value : Nat) :
    (bsp_i2c0_reg8_write addr reg value).2
      = (bsp_i2c0_write addr
          (fun k => if k = 0 then reg else if k = 1 then value else 0) 2).2
    ∧ (bsp_i2c0_reg8_write addr reg value).2.filterMap getTransmit = [reg, value] := by
  refine ⟨rfl, ?_⟩
  show (bsp_i2c0_write addr
      (fun k => if k = 0 then reg else if k = 1 then value else 0) 2).2.filterMap
        getTransmit = [reg, value]
  rw [bsp_i2c0_write, if_neg (show ¬ (2:Nat) < 1 from by omega)]
  simp only [List.filterMap_append, List.filterMap_cons, List.filterMap_nil, getTransmit]
  rw [txLoop_transmits
    (fun k => if k = 0 then reg else if k = 1 then value else 0) 2 0]
  simp [List.range_succ]

/-- C6: for every count ≥ 1 the write transaction performs exactly this event
sequence: poll bus-busy until clear, assert start, poll start-sent, transmit
the address shifted left one bit (an even byte, so the read/write bit is
cleared) in transmitter mode, poll then clear address-acknowledged, poll
transmit-buffer-empty, then for each i from 0 to count-1 in order transmit
buffer[i] followed by a transmit-buffer-empty poll, then assert stop and poll
the control-register stop bit. -/
theorem C6_write_event_sequence (addr count : Nat) (data : Nat → Nat)
    (h : 1 ≤ count) :
    (bsp_i2c0_write addr data count).2
      = [HWEvent.pollFlagClear I2cFlag.I2CBSY,
         HWEvent.start,
         HWEvent.pollFlagSet I2cFlag.SBSEND,
         HWEvent.addressing (2 * addr) Dir.transmitter,
         HWEvent.pollFlagSet I2cFlag.ADDSEND,
         HWEvent.clearFlag I2cFlag.ADDSEND,
         HWEvent.pollFlagSet I2cFlag.TBE]
        ++ (List.range count).flatMap
             (fun i => [HWEvent.transmit (data i), HWEvent.pollFlagSet I2cFlag.TBE])
        ++ [HWEvent.stop, HWEvent.pollStopBit]
    ∧ (2 * addr) % 2 = 0 := by
  constructor
  · have h1 : ¬ count < 1 := by omega
    rw [bsp_i2c0_write, if_neg h1]
    show _ ++ txLoop data 0 count ++ _ = _
    rw [txLoop_eq_range data count 0]
    have hz : (fun i => [HWEvent.transmit (data (0 + i)),
                HWEvent.pollFlagSet I2cFlag.TBE])
            = fun i => [HWEvent.transmit (data i), HWEvent.pollFlagSet I2cFlag.TBE] := by
      funext k
      simp
    rw [hz]
  · omega

/-- C6 witness at addr 3, count 1, constant buffer 9. -/
theorem C6_write_event_sequence_witness :
    (bsp_i2c0_write 3 (fun _ => 9) 1).2
      = [HWEvent.pollFlagClear I2cFlag.I2CBSY,
         HWEvent.start,
         HWEvent.pollFlagSet I2cFlag.SBSEND,
         HWEvent.addressing (2 * 3) Dir.transmitter,
         HWEvent.pollFlagSet I2cFlag.ADDSEND,
         HWEvent.clearFlag I2cFlag.ADDSEND,
         HWEvent.pollFlagSet I2cFlag.TBE]
        ++ (List.range 1).flatMap
             (fun i => [HWEvent.transmit ((fun _ => 9) i),
                        HWEvent.pollFlagSet I2cFlag.TBE])
        ++ [HWEvent.stop, HWEvent.pollStopBit]
    ∧ (2 * 3) % 2 = 0 :=
  C6_write_event_sequence 3 1 (fun _ => 9) (by decide)

/-- C7: for every count ≥ 1 the read trace ends, after all `count` byte-receive
operations, with exactly: assert stop, poll the control-register stop bit,
restore ACK position to current, re-enable ACK — in that order on every path. -/
theorem C7_read_ends_with_stop_and_ack_restore (addr count : Nat)
    (rx : Nat → Nat) (h : 1 ≤ count) :
    ∃ p, (bsp_i2c0_read addr count rx).2
        = p ++ [HWEvent.stop, HWEvent.pollStopBit,
                HWEvent.ackpos AckPos.current, HWEvent.ackCfg AckMode.enable]
      ∧ p.countP isReceive = count := by
  have h1 : ¬ count < 1 := by omega
  have hsplit : ∃ p, (bsp_i2c0_read addr count rx).2
      = p ++ [HWEvent.stop, HWEvent.pollStopBit,
              HWEvent.ackpos AckPos.current, HWEvent.ackCfg AckMode.enable] := by
    rw [bsp_i2c0_read, if_neg h1]
    exact ⟨_, rfl⟩
  obtain ⟨p, hp⟩ := hsplit
  refine ⟨p, hp, ?_⟩
  have htr := read_countP_isReceive addr count rx h
  rw [hp, List.countP_append] at htr
  simpa [isReceive, List.countP_cons] using htr

/-- C7 witness at addr 80, count 1, constant stream 9. -/
theorem C7_read_ends_with_stop_and_ack_restore_witness :
    ∃ p, (bsp_i2c0_read 80 1 (fun _ => 9)).2
        = p ++ [HWEvent.stop, HWEvent.pollStopBit,
                HWEvent.ackpos AckPos.current, HWEvent.ackCfg AckMode.enable]
      ∧ p.countP isReceive = 1 :=
  C7_read_ends_with_stop_and_ack_restore 80 1 (fun _ => 9) (by decide)

/-- C2 witness at addr 80, count 3, constant receive stream 0. -/
theorem C2_receive_count_and_ack_discipline_witness :
    (bsp_i2c0_read 80 3 (fun _ => 0)).2.countP isReceive = 3
    ∧ receivesRBNE (bsp_i2c0_read 80 3 (fun _ => 0)).2 = true
    ∧ (bsp_i2c0_read 80 3 (fun _ => 0)).2.countP isAckDisable = (if 3 ≤ 3 then 1 else 0)
    ∧ (3 ≤ 3 → ∃ p s, (bsp_i2c0_read 80 3 (fun _ => 0)).2
        = p ++ ([HWEvent.pollFlagSet I2cFlag.BTC, HWEvent.ackCfg AckMode.disable,
                 HWEvent.pollFlagSet I2cFlag.RBNE,
                 HWEvent.receive ((fun _ => 0) (3 - 3))] ++ s)
        ∧ p.countP isReceive = 3 - 3) :=
  C2_receive_count_and_ack_discipline 80 3 (fun _ => 0) (by decide)

/-- C8: no operation stores outside the requested byte range: replaying the
read trace changes no buffer index ≥ count, the raw and register writes store
nothing at all, and the register read stores nothing beyond the single byte of
its `value` argument (index 0). -/
theorem C8_no_stores_outside_requested_range (mem : Nat → Nat)
    (addr reg value vinit count j : Nat) (data : Nat → Nat) (rx : Nat → Nat)
    (hj : count ≤ j) (h1j : 1 ≤ j) :
    applyTrace (bsp_i2c0_read addr count rx).2 data j = data j
    ∧ (∀ e ∈ (bsp_i2c0_write addr data count).2, isStore e = false)
    ∧ (∀ e ∈ (bsp_i2c0_reg8_write addr reg value).2, isStore e = false)
    ∧ applyTrace (bsp_i2c0_reg8_read mem addr reg vinit rx).2.1 data j = data j := by
  refine ⟨?_, write_no_store addr count data, ?_, ?_⟩
  · exact applyTrace_frame count j hj _ data (read_storesBelow addr count rx)
  · intro e he
    exact write_no_store addr 2 _ e he
  · apply applyTrace_frame 1 j h1j
    intro e he
    have htr : (bsp_i2c0_reg8_read mem addr reg vinit rx).2.1
        = (bsp_i2c0_write addr (fun k => mem (reg + k)) 1).2
          ++ (bsp_i2c0_read addr 1 rx).2 := rfl
    rw [htr] at he
    rcases List.mem_append.mp he with hA | hA
    · exact isStore_false_storesBelow 1 e (write_no_store addr 1 _ e hA)
    · exact read_storesBelow addr 1 rx e hA

/-- C8 witness at count 1, index 1, concrete buffers. -/
theorem C8_no_stores_outside_requested_range_witness :
    applyTrace (bsp_i2c0_read 80 1 (fun _ => 9)).2 (fun _ => 0) 1 = (fun _ => 0) 1
    ∧ (∀ e ∈ (bsp_i2c0_write 80 (fun _ => 0) 1).2, isStore e = false)
    ∧ (∀ e ∈ (bsp_i2c0_reg8_write 80 5 6).2, isStore e = false)
    ∧ applyTrace (bsp_i2c0_reg8_read (fun _ => 0) 80 5 0 (fun _ => 9)).2.1
        (fun _ => 0) 1 = (fun _ => 0) 1 :=
  C8_no_stores_outside_requested_range (fun _ => 0) 80 5 6 0 1 1 (fun _ => 0)
    (fun _ => 9) (by decide) (by decide)

/-- C9: `bsp_i2c0_write` never writes through the caller's buffer: its trace
contains no buffer store, so replaying it leaves the buffer byte-for-byte
unchanged, on the FAIL path (count 0) and the OK path alike. -/
theorem C9_write_never_modifies_buffer (addr count : Nat) (data : Nat → Nat) :
    applyTrace (bsp_i2c0_write addr data count).2 data = data := by
  funext j
  exact applyTrace_frame 0 j (Nat.zero_le j) _ data
    (fun e he => isStore_false_storesBelow 0 e (write_no_store addr count data e he))

/-- C10: for count exactly 3, the BTC poll and the ACK-disable happen at loop
iteration i = 0, before the first byte is read from the data register: the
trace starts with the handshake prefix followed immediately by BTC poll,
ACK-disable, RBNE poll, first receive — and no receive event occurs before the
ACK-disable. -/
theorem C10_count3_ack_disable_precedes_every_receive (addr : Nat)
    (rx : Nat → Nat) :
    (∃ s, (bsp_i2c0_read addr 3 rx).2
        = [HWEvent.ackpos AckPos.next, HWEvent.pollFlagClear I2cFlag.I2CBSY,
           HWEvent.start, HWEvent.pollFlagSet I2cFlag.SBSEND,
           HWEvent.addressing (2 * addr) Dir.receiver,
           HWEvent.pollFlagSet I2cFlag.ADDSEND, HWEvent.clearFlag I2cFlag.ADDSEND,
           HWEvent.pollFlagSet I2cFlag.BTC, HWEvent.ackCfg AckMode.disable,
           HWEvent.pollFlagSet I2cFlag.RBNE, HWEvent.receive (rx 0)] ++ s)
    ∧ ((bsp_i2c0_read addr 3 rx).2.takeWhile
        (fun e => !isAckDisable e)).countP isReceive = 0 := by
  constructor
  · exact ⟨[HWEvent.store 0 (rx 0),
      HWEvent.pollFlagSet I2cFlag.RBNE, HWEvent.receive (rx 1), HWEvent.store 1 (rx 1),
      HWEvent.pollFlagSet I2cFlag.RBNE, HWEvent.receive (rx 2), HWEvent.store 2 (rx 2),
      HWEvent.stop, HWEvent.pollStopBit, HWEvent.ackpos AckPos.current,
      HWEvent.ackCfg AckMode.enable], rfl⟩
  · rfl
